import Mathlib

/-!
Shallow embedding of the `swc` word-count tool (`src/swc/cli.py`).

The Python module has four core functions, embedded here over `String` /
`List Char` (a Python `str` is a sequence of Unicode scalar values):

* `OrderedOptionsCommand.parse_args`: appends the names of the parameters,
  in command-line order, onto the class attribute `_options` (a process-wide
  list that is never reset).  Embedded as `parse_args_options`, with the
  mutable class attribute passed explicitly as state.
* `get_wc_values`: returns the stringified UTF-8 byte count, newline count,
  whitespace-token count (`len(text.split())`) and character count.
* `byte_or_char`: scans the ordered parameter names and returns the last
  one equal to `"count"` or `"chars"` (`None` if neither occurs).
* `create_output`: assembles the tab-separated output line.
* `parse_file`: glues the above together and appends a space and the
  source name.

Spec-side (independent) definitions used to state the claims:
`runStarts` (number of maximal non-whitespace runs), `specFields` and
`outFields` (the output-policy field list of spec section 4.4).
-/

namespace Swc

/-- Model of `OrderedOptionsCommand.parse_args`: the loop
`for param in param_order: self._options.append(param.name)`.
The class attribute `_options` is threaded explicitly as `options`. -/
def parse_args_options (options : List String) (param_order : List String) :
    List String :=
  param_order.foldl (fun opts name => opts ++ [name]) options

/-- The Unicode code points on which Python `str.split()` splits
(CPython `Py_UNICODE_ISSPACE`). -/
def isPySpace (c : Char) : Bool :=
  let n := c.toNat
  (0x09 ≤ n && n ≤ 0x0D) || (0x1C ≤ n && n ≤ 0x1F) || n == 0x20 ||
    n == 0x85 || n == 0xA0 || n == 0x1680 || (0x2000 ≤ n && n ≤ 0x200A) ||
    n == 0x2028 || n == 0x2029 || n == 0x202F || n == 0x205F || n == 0x3000

/-- Linear-scan tokenizer modelling Python `str.split()` (no argument):
`acc` holds the reversed characters of the token currently being read. -/
def pysplit_aux : List Char → List Char → List (List Char)
  | [], acc => if acc.isEmpty then [] else [acc.reverse]
  | c :: cs, acc =>
    if isPySpace c then
      if acc.isEmpty then pysplit_aux cs [] else acc.reverse :: pysplit_aux cs []
    else
      pysplit_aux cs (c :: acc)

/-- Python `text.split()`. -/
def pysplit (text : List Char) : List (List Char) :=
  pysplit_aux text []

/-- Number of bytes a code point occupies under Python `str.encode("utf-8")`. -/
def pyUtf8Size (c : Char) : Nat :=
  if c.toNat ≤ 0x7F then 1
  else if c.toNat ≤ 0x7FF then 2
  else if c.toNat ≤ 0xFFFF then 3
  else 4

/-- `len(text.encode("utf-8"))`. -/
def byte_count_val (text : List Char) : Nat :=
  (text.map pyUtf8Size).sum

/-- `len(["c" for c in text if c == "\n"])`. -/
def line_count_val (text : List Char) : Nat :=
  (text.filter (fun c => c = '\n')).length

/-- `len(text.split())`. -/
def word_count_val (text : List Char) : Nat :=
  (pysplit text).length

/-- `len(text)`. -/
def char_count_val (text : List Char) : Nat :=
  text.length

/-- `get_wc_values`: the four counts, each stringified, in the order
byte count, line count, word count, char count. -/
def get_wc_values (text : String) : String × String × String × String :=
  (toString (byte_count_val text.data), toString (line_count_val text.data),
   toString (word_count_val text.data), toString (char_count_val text.data))

/-- `byte_or_char`: the loop
`for param in ordered_params: if param == "count": ...; if param == "chars": ...`
starting from `last_param = None`. -/
def byte_or_char (ordered_params : List String) : Option String :=
  ordered_params.foldl
    (fun last_param param =>
      let last_param := if param = "count" then some "count" else last_param
      if param = "chars" then some "chars" else last_param)
    none

/-- `create_output`: params is `(count, lines, words, chars)`, values is
`(byte_count, line_count, word_count, char_count)` as returned by
`get_wc_values`. -/
def create_output (params : Bool × Bool × Bool × Bool)
    (values : String × String × String × String)
    (last_param : Option String) : String :=
  match params, values with
  | (count, lines, words, chars), (byte_count, line_count, word_count, char_count) =>
    if !(count || lines || words || chars) then
      line_count ++ "\t" ++ word_count ++ "\t" ++ byte_count
    else
      let output : List String := []
      let output := if lines then output ++ [line_count] else output
      let output := if words then output ++ [word_count] else output
      let output :=
        if count && chars then
          output ++ [if last_param = some "count" then byte_count else char_count]
        else
          let output := if count then output ++ [byte_count] else output
          if chars then output ++ [char_count] else output
      String.intercalate "\t" output

/-- `parse_file`: `name` is `file.name`, `text` is `file.read()`. -/
def parse_file (name : String) (text : String)
    (params : Bool × Bool × Bool × Bool) (ordered_params : List String) :
    String :=
  let last_param := byte_or_char ordered_params
  let output := create_output params (get_wc_values text) last_param
  output ++ " " ++ name

/-- One full `cli` invocation inside a single process: the process-wide
`_options` state enters, grows by this invocation's parameter order, and the
grown state is what `parse_file` receives (as in `cli`, which passes
`OrderedOptionsCommand._options`). -/
def invoke (options : List String) (param_order : List String)
    (params : Bool × Bool × Bool × Bool) (text name : String) :
    List String × String :=
  let opts := parse_args_options options param_order
  (opts, parse_file name text params opts)

/-- A parameter name the resolver recognizes (bytes flag `"count"` or
chars flag `"chars"`). -/
def recognizedFlag (p : String) : Bool :=
  p == "count" || p == "chars"

/-- Spec-side: number of maximal runs of non-whitespace characters, counted
as the number of non-whitespace characters not preceded by a non-whitespace
character; `prevNonSpace` says whether the previous character was
non-whitespace. -/
def runStarts : List Char → Bool → Nat
  | [], _ => 0
  | c :: cs, prevNonSpace =>
    (if !isPySpace c && !prevNonSpace then 1 else 0) +
      runStarts cs (!isPySpace c)

/-- Spec-side output policy (section 4.4, step 2): fields in fixed order
lines, words, then the bytes/chars field, each present only when requested;
the bytes/chars slot takes the byte count exactly when both flags are
requested and the resolver decision is the bytes flag. -/
def specFields (count lines words chars : Bool)
    (byte_count line_count word_count char_count : String)
    (decision : Option String) : List String :=
  (if lines then [line_count] else []) ++
    (if words then [word_count] else []) ++
    (if count && chars then
      [if decision = some "count" then byte_count else char_count]
    else if count then [byte_count]
    else if chars then [char_count]
    else [])

/-- Spec-side output policy including the default case (section 4.4,
step 1): with no flags requested the fields are lines, words, bytes. -/
def outFields (params : Bool × Bool × Bool × Bool)
    (values : String × String × String × String)
    (decision : Option String) : List String :=
  match params, values with
  | (count, lines, words, chars), (byte_count, line_count, word_count, char_count) =>
    if !(count || lines || words || chars) then
      [line_count, word_count, byte_count]
    else
      specFields count lines words chars byte_count line_count word_count
        char_count decision

/-! Helper lemmas shared by the claim theorems. -/

/-- The per-character UTF-8 byte count of the Python encoder agrees with
Lean's `Char.utf8Size`. -/
theorem pyUtf8Size_eq_utf8Size (c : Char) : pyUtf8Size c = c.utf8Size := by
  simp only [pyUtf8Size, Char.utf8Size, UInt32.le_def, BitVec.le_def,
    UInt32.ofNatCore, BitVec.toNat_ofNatLt, Char.toNat, UInt32.toNat]

/-- Summing `Char.utf8Size` over a character list gives `String.utf8Len`. -/
theorem sum_map_utf8Size (l : List Char) :
    (l.map Char.utf8Size).sum = String.utf8Len l := by
  induction l with
  | nil => rfl
  | cons c cs ih => simp [ih, Nat.add_comm]

/-- The modelled byte count is `String.utf8Len`. -/
theorem byte_count_val_eq_utf8Len (l : List Char) :
    byte_count_val l = String.utf8Len l := by
  have h : pyUtf8Size = Char.utf8Size := funext pyUtf8Size_eq_utf8Size
  rw [byte_count_val, h, sum_map_utf8Size]

/-- A string's UTF-8 byte size is `String.utf8Len` of its character list. -/
theorem utf8ByteSize_data (s : String) :
    s.utf8ByteSize = String.utf8Len s.data := by
  cases s with
  | mk d => rfl

/-- The `byte_or_char` loop, generalized over the starting marker: the result
is the rightmost recognized parameter, falling back to the start marker. -/
theorem foldl_byte_or_char (l : List String) (acc : Option String) :
    l.foldl (fun last_param param =>
      let last_param := if param = "count" then some "count" else last_param
      if param = "chars" then some "chars" else last_param) acc =
    (l.reverse.find? recognizedFlag).or acc := by
  induction l generalizing acc with
  | nil => rfl
  | cons x xs ih =>
    simp only [List.foldl_cons, List.reverse_cons, List.find?_append, ih]
    cases h : xs.reverse.find? recognizedFlag with
    | some y => simp
    | none =>
      simp only [Option.none_or]
      by_cases hc : x = "count"
      · subst hc; simp [recognizedFlag, List.find?]
      · by_cases hm : x = "chars"
        · subst hm; simp [recognizedFlag, List.find?]
        · have h1 : (x == "count") = false := beq_eq_false_iff_ne.mpr hc
          have h2 : (x == "chars") = false := beq_eq_false_iff_ne.mpr hm
          simp [recognizedFlag, List.find?, hc, hm, h1, h2]

/-- `byte_or_char` returns the rightmost recognized parameter. -/
theorem byte_or_char_eq_find (l : List String) :
    byte_or_char l = l.reverse.find? recognizedFlag := by
  rw [byte_or_char, foldl_byte_or_char, Option.or_none]

/-- The `parse_args` append loop concatenates the new parameter order onto
the existing `_options` state. -/
theorem parse_args_options_eq_append (options param_order : List String) :
    parse_args_options options param_order = options ++ param_order := by
  induction param_order generalizing options with
  | nil => simp [parse_args_options]
  | cons x xs ih =>
    simp only [parse_args_options, List.foldl_cons] at *
    rw [ih]
    simp

/-- Token count of the split tokenizer, generalized over a partial token:
it is the number of maximal non-whitespace runs, plus one for the token in
progress. -/
theorem pysplit_aux_length (l : List Char) : ∀ acc : List Char,
    (pysplit_aux l acc).length =
      runStarts l (!acc.isEmpty) + (if acc.isEmpty then 0 else 1) := by
  induction l with
  | nil => intro acc; cases acc <;> simp [pysplit_aux, runStarts]
  | cons c cs ih =>
    intro acc
    by_cases hs : isPySpace c = true
    · cases acc with
      | nil => simp [pysplit_aux, runStarts, hs, ih]
      | cons a as => simp [pysplit_aux, runStarts, hs, ih]
    · have hs2 : isPySpace c = false := by revert hs; cases isPySpace c <;> simp
      cases acc with
      | nil => simp [pysplit_aux, runStarts, hs2, ih]; omega
      | cons a as => simp [pysplit_aux, runStarts, hs2, ih]

/-- `create_output` produces exactly the tab-join of the spec-side field
list, default case included. -/
theorem create_output_eq_outFields (params : Bool × Bool × Bool × Bool)
    (values : String × String × String × String) (lp : Option String) :
    create_output params values lp =
      String.intercalate "\t" (outFields params values lp) := by
  obtain ⟨count, lines, words, chars⟩ := params
  obtain ⟨bc, lc, wc, cc⟩ := values
  cases count <;> cases lines <;> cases words <;> cases chars <;> rfl

/-- Byte count versus character count, on character lists: each character
contributes at least one byte, and exactly one byte exactly when it is
ASCII. -/
theorem byte_char_aux : ∀ text : List Char,
    char_count_val text ≤ byte_count_val text ∧
    (byte_count_val text = char_count_val text ↔ ∀ c ∈ text, c.toNat ≤ 127) := by
  intro text
  induction text with
  | nil => simp [char_count_val, byte_count_val]
  | cons c cs ih =>
    obtain ⟨ih1, ih2⟩ := ih
    have h1 : 1 ≤ pyUtf8Size c := by
      unfold pyUtf8Size
      split <;> [omega; split <;> [omega; split <;> omega]]
    have h2 : pyUtf8Size c = 1 ↔ c.toNat ≤ 127 := by
      unfold pyUtf8Size
      split <;> [omega; split <;> [omega; split <;> omega]]
    constructor
    · simp only [char_count_val, byte_count_val, List.length_cons, List.map_cons,
        List.sum_cons] at *
      omega
    · simp only [char_count_val, byte_count_val, List.length_cons, List.map_cons,
        List.sum_cons, List.mem_cons] at *
      constructor
      · intro h
        have hc : pyUtf8Size c = 1 := by omega
        have hcs : byte_count_val cs = char_count_val cs := by
          simp only [char_count_val, byte_count_val] at *
          omega
        intro x hx
        rcases hx with rfl | hx
        · exact h2.mp hc
        · exact (ih2.mp hcs) x hx
      · intro h
        have hc : pyUtf8Size c = 1 := h2.mpr (h c (Or.inl rfl))
        have hcs : byte_count_val cs = char_count_val cs :=
          ih2.mpr (fun x hx => h x (Or.inr hx))
        simp only [char_count_val, byte_count_val] at *
        omega

/-! Claim theorems. -/

/-- C1 (code-bug evaluation): the list backing FlagOrder is a class
attribute that is never reset, so it accumulates across invocations within
one process.  After a first invocation whose argument parse records the
bytes flag `"count"`, a second invocation whose own parse records only the
chars flag `"chars"` sees the sequence `["count", "chars"]`, which still
contains the first invocation's entry — contradicting the contract that
each invocation starts from an empty sequence. -/
theorem c1_options_accumulate :
    parse_args_options (parse_args_options [] ["count"]) ["chars"] =
      ["count", "chars"] ∧
    "count" ∈ parse_args_options (parse_args_options [] ["count"]) ["chars"] := by
  constructor
  · rfl
  · decide

/-- C2: `byte_or_char` scans FlagOrder first to last keeping a last-seen
marker updated on `"count"` and `"chars"` tokens only, so it returns the
rightmost recognized token (`none` when neither occurs); in particular
`["count", "chars"]` gives chars, `["chars", "count"]` gives bytes,
`["count"]` gives bytes and `[]` gives `none`. -/
theorem c2_byte_or_char_spec :
    (∀ l : List String, byte_or_char l = l.reverse.find? recognizedFlag) ∧
    byte_or_char ["count", "chars"] = some "chars" ∧
    byte_or_char ["chars", "count"] = some "count" ∧
    byte_or_char ["count"] = some "count" ∧
    byte_or_char [] = none :=
  ⟨byte_or_char_eq_find, rfl, rfl, rfl, rfl⟩

/-- C3: with at least one flag requested, `create_output` emits exactly the
requested counts, tab-separated, in the fixed order lines, words, then the
bytes/chars field, omitting unrequested fields; the bytes/chars field is
the byte count when both flags are requested and the decision is the bytes
flag, the char count when both are requested and the decision is chars or
none, the byte count when only bytes is requested, and the char count when
only chars is requested (this is `specFields`). -/
theorem c3_create_output_fields (count lines words chars : Bool)
    (byte_count line_count word_count char_count : String) (lp : Option String)
    (h : (count || lines || words || chars) = true) :
    create_output (count, lines, words, chars)
      (byte_count, line_count, word_count, char_count) lp =
    String.intercalate "\t"
      (specFields count lines words chars byte_count line_count word_count
        char_count lp) := by
  cases count <;> cases lines <;> cases words <;> cases chars <;>
    first
      | rfl
      | simp at h

/-- C3 witness: the theorem applied with only the bytes flag requested. -/
theorem c3_create_output_fields_witness :
    ((true || false || false || false) = true) ∧
    create_output (true, false, false, false) ("26", "1", "6", "26") none =
      String.intercalate "\t"
        (specFields true false false false "26" "1" "6" "26" none) :=
  ⟨rfl, c3_create_output_fields true false false false "26" "1" "6" "26" none rfl⟩

/-- C4 counterexample: on the text `"Hello world\nThis is a test"` with no
flags, `parse_file` outputs `"1\t6\t26 f.txt"` — the text is 26 ASCII
characters, hence 26 UTF-8 bytes, not the 27 the claim states. -/
theorem c4_counterexample :
    parse_file "f.txt" "Hello world\nThis is a test"
        (false, false, false, false) [] = "1\t6\t26 f.txt" ∧
    parse_file "f.txt" "Hello world\nThis is a test"
        (false, false, false, false) [] ≠ "1\t6\t27 f.txt" := by
  constructor
  · rfl
  · decide

/-- C4 amended: for the input text `"Hello world\nThis is a test"` and no
flags requested, `parse_file` produces `"1\t6\t26"` (1 newline, 6 words,
26 UTF-8 bytes) followed by a single space and the source name. -/
theorem c4_amended (name : String) :
    parse_file name "Hello world\nThis is a test"
      (false, false, false, false) [] = "1\t6\t26 " ++ name := by
  rfl

/-- C5: `get_wc_values` computes the UTF-8 byte size of the text (checked
against Lean's own `String.utf8ByteSize`), the number of newline
characters, the number of maximal whitespace-delimited tokens (checked
against the independent `runStarts` run counter), and the number of
characters; it is total by construction, `wordCount` of the empty string is
0, `wordCount " a  b \tc\n"` is 3, and on the empty string all four counts
are 0. -/
theorem c5_get_wc_values_spec :
    (∀ text : String,
      byte_count_val text.data = text.utf8ByteSize ∧
      line_count_val text.data = text.data.count '\n' ∧
      word_count_val text.data = runStarts text.data false ∧
      char_count_val text.data = text.length) ∧
    word_count_val "".data = 0 ∧
    word_count_val " a  b \tc\n".data = 3 ∧
    get_wc_values "" = ("0", "0", "0", "0") := by
  refine ⟨fun text => ⟨?_, ?_, ?_, ?_⟩, by decide, by decide, rfl⟩
  · rw [byte_count_val_eq_utf8Len, utf8ByteSize_data]
  · rw [line_count_val, List.count, List.countP_eq_length_filter]
    congr 1
  · have h := pysplit_aux_length text.data []
    simpa [word_count_val, pysplit] using h
  · cases text with
    | mk d => rfl

/-- C6: with no flags requested, `create_output` returns exactly the line
count, word count and byte count, tab-separated in that order, for every
value of the resolver decision. -/
theorem c6_no_flags (byte_count line_count word_count char_count : String)
    (last_param : Option String) :
    create_output (false, false, false, false)
      (byte_count, line_count, word_count, char_count) last_param =
    line_count ++ "\t" ++ word_count ++ "\t" ++ byte_count :=
  rfl

/-- C7: for every text, the byte count is at least the character count,
with equality exactly when every character of the text is ASCII. -/
theorem c7_byte_ge_char (text : String) :
    char_count_val text.data ≤ byte_count_val text.data ∧
    (byte_count_val text.data = char_count_val text.data ↔
      ∀ c ∈ text.data, c.toNat ≤ 127) :=
  byte_char_aux text.data

/-- C8: two successive invocations with identical arguments produce
identical output, even with the process-wide `_options` state threaded
through: the formatter pipeline has no hidden state dependency beyond that
list, and repeating the same parameter order does not change the rightmost
recognized flag. -/
theorem c8_invoke_idempotent (options param_order : List String)
    (params : Bool × Bool × Bool × Bool) (text name : String) :
    (invoke options param_order params text name).2 =
      (invoke (invoke options param_order params text name).1 param_order
        params text name).2 := by
  simp only [invoke, parse_file, parse_args_options_eq_append]
  have hb : byte_or_char (options ++ param_order) =
      byte_or_char (options ++ param_order ++ param_order) := by
    rw [byte_or_char_eq_find, byte_or_char_eq_find]
    simp only [List.reverse_append, List.find?_append]
    cases h : param_order.reverse.find? recognizedFlag <;> simp [h]
  rw [hb]

/-- C9: the output of `parse_file` is the tab-join of the stringified
requested count values (per the spec's output policy, default case
included) followed by a single space and the source name. -/
theorem c9_parse_file_output (name text : String)
    (params : Bool × Bool × Bool × Bool) (ordered_params : List String) :
    parse_file name text params ordered_params =
      String.intercalate "\t"
        (outFields params (get_wc_values text) (byte_or_char ordered_params)) ++
        " " ++ name := by
  simp only [parse_file, create_output_eq_outFields]

/-- C10: when the bytes flag and the chars flag are not both requested,
`create_output` does not depend on the resolver decision at all. -/
theorem c10_last_param_irrelevant (count lines words chars : Bool)
    (values : String × String × String × String) (lp lq : Option String)
    (h : ¬(count = true ∧ chars = true)) :
    create_output (count, lines, words, chars) values lp =
      create_output (count, lines, words, chars) values lq := by
  obtain ⟨bc, lc, wc, cc⟩ := values
  cases count <;> cases chars
  · rfl
  · rfl
  · rfl
  · exact absurd ⟨rfl, rfl⟩ h

/-- C10 witness: the theorem applied with only the bytes flag requested and
two different resolver decisions. -/
theorem c10_last_param_irrelevant_witness :
    ¬((true : Bool) = true ∧ (false : Bool) = true) ∧
    create_output (true, false, false, false) ("26", "1", "6", "26")
        (some "chars") =
      create_output (true, false, false, false) ("26", "1", "6", "26") none :=
  ⟨by decide,
    c10_last_param_irrelevant true false false false ("26", "1", "6", "26")
      (some "chars") none (by decide)⟩

end Swc
